import Mathlib

/-
  Verification development for the commit analysis and aggregation pipeline
  of the aiagent repository (backend/app).

  The Python source is shallowly embedded:
  * strings that undergo substring or case operations are `List Char`;
    identifiers that are only compared for equality stay `String`;
  * timestamps are `Int` seconds since the epoch (Python datetimes are
    normalized to UTC before any comparison, so an absolute second count is
    an exact model of comparisons, differences, and hour or day truncation);
  * Python floats are modelled as `Rat` (every constant in the source is a
    small decimal, and the properties at issue are order and equality facts
    about the intended real values);
  * Python dicts (insertion ordered) are association lists with
    insert-or-update-in-place operations;
  * Python stable sorts (`sorted`, `list.sort`) are `List.insertionSort`,
    which is stable and permutes its input.
-/

/-- Char list of a string literal (Python str values that get sliced or
searched are modelled as `List Char`). -/
def chars (s : String) : List Char := s.toList

/-- Python `str.lower()` over the char-list model. -/
def lowerStr (s : List Char) : List Char := s.map Char.toLower

/-- Python substring containment `pat in hay`. -/
def containsSub (hay pat : List Char) : Bool :=
  match hay with
  | [] => pat.isPrefixOf []
  | _ :: t => pat.isPrefixOf hay || containsSub t pat

/-- models `app/models/commit.py` `CommitType` (10-member closed enum). -/
inductive CommitType where
  | feature
  | bugfix
  | security
  | performance
  | documentation
  | refactor
  | test
  | style
  | chore
  | other
deriving DecidableEq, BEq

/-- The `.value` string of a `CommitType` member. -/
def CommitType.value : CommitType → String
  | .feature => "feature"
  | .bugfix => "bugfix"
  | .security => "security"
  | .performance => "performance"
  | .documentation => "documentation"
  | .refactor => "refactor"
  | .test => "test"
  | .style => "style"
  | .chore => "chore"
  | .other => "other"

/-- models `app/models/commit.py` `FileChange`. -/
structure FileChange where
  filename : List Char
  additions : Nat
  deletions : Nat
  changes : Nat
  status : String
  patch : Option (List Char) := none
deriving DecidableEq

/-- models `app/models/commit.py` `CommitAuthor`. -/
structure CommitAuthor where
  name : String := "Unknown"
  email : String := "unknown@example.com"
  username : Option String := none
  avatar_url : Option String := none
deriving DecidableEq

/-- models `app/models/commit.py` `Commit`. -/
structure Commit where
  sha : String
  message : List Char
  author : CommitAuthor
  committer : CommitAuthor
  timestamp : Int
  repository : String
  branch : String
  url : String
  files_changed : List FileChange := []
  additions : Nat := 0
  deletions : Nat := 0
  total_changes : Nat := 0
  commit_type : CommitType := .other
  is_breaking_change : Bool := false
  affects_security : Bool := false
  affects_performance : Bool := false
  pull_request_number : Option Nat := none
  issues_closed : List Nat := []
  tags : List String := []
deriving DecidableEq

/-- Property `Commit.short_sha`: `self.sha[:7]`. -/
def Commit.short_sha (c : Commit) : String := c.sha.take 7

/-- Property `Commit.is_major_change`. -/
def Commit.is_major_change (c : Commit) : Bool :=
  c.total_changes > 50 || c.is_breaking_change

/-- Property `Commit.files_count`: `len(self.files_changed)`. -/
def Commit.files_count (c : Commit) : Nat := c.files_changed.length

/-- models `app/models/commit.py` `CommitCollection` (stored fields; the
summary fields recomputed by `_analyze_commits` are not read by any
property verified here). -/
structure CommitCollection where
  commits : List Commit
  start_time : Int
  end_time : Int
  repository : String
  total_commits : Nat
  total_additions : Nat
  total_deletions : Nat
  total_files_changed : Nat
deriving DecidableEq

/-- Property `CommitCollection.time_period_hours`: `(end - start).total_seconds() / 3600`. -/
def CommitCollection.time_period_hours (cc : CommitCollection) : Rat :=
  ((cc.end_time - cc.start_time : Int) : Rat) / 3600

/-- Property `CommitCollection.commits_per_hour`:
`self.total_commits / hours if hours > 0 else 0`. -/
def CommitCollection.commits_per_hour (cc : CommitCollection) : Rat :=
  if 0 < cc.time_period_hours then
    (cc.total_commits : Rat) / cc.time_period_hours
  else 0

/-
  Classifier: `app/core/github_collector.py`, `GitHubCollector._classify_commit_type`
  and the three flag predicates.
-/

/-- Message keyword table of `_classify_commit_type`, in source order.
Each entry is (keyword list, resulting category). -/
def classifyKeywordTable : List (List (List Char) × CommitType) :=
  [ ([chars "feat:", chars "feature:", chars "add:", chars "new:"], .feature),
    ([chars "fix:", chars "bug:", chars "bugfix:", chars "hotfix:"], .bugfix),
    ([chars "security:", chars "sec:", chars "vulnerability", chars "cve"], .security),
    ([chars "perf:", chars "performance:", chars "optimize:", chars "speed:"], .performance),
    ([chars "docs:", chars "doc:", chars "documentation:", chars "readme"], .documentation),
    ([chars "refactor:", chars "refactoring:", chars "cleanup:", chars "restructure:"], .refactor),
    ([chars "test:", chars "tests:", chars "testing:", chars "spec:"], .test),
    ([chars "style:", chars "format:", chars "lint:", chars "prettier:"], .style),
    ([chars "chore:", chars "build:", chars "ci:", chars "deps:"], .chore) ]

/-- Is a filename counted as a test file by the fallback heuristic:
`'test' in f.lower() or f.endswith('.test.js') or f.endswith('_test.py')`. -/
def isTestFile (f : List Char) : Bool :=
  containsSub (lowerStr f) (chars "test")
    || (chars ".test.js").isSuffixOf f
    || (chars "_test.py").isSuffixOf f

/-- Is a filename counted as a doc file by the fallback heuristic:
`f.lower().endswith(('.md', '.rst', '.txt')) or 'doc' in f.lower()`. -/
def isDocFile (f : List Char) : Bool :=
  (chars ".md").isSuffixOf (lowerStr f)
    || (chars ".rst").isSuffixOf (lowerStr f)
    || (chars ".txt").isSuffixOf (lowerStr f)
    || containsSub (lowerStr f) (chars "doc")

/-- First category of `classifyKeywordTable` whose keyword list matches the
lowered message; mirrors the if/elif chain of `_classify_commit_type`. -/
def firstKeywordMatch (ml : List Char) : List (List (List Char) × CommitType) → Option CommitType
  | [] => none
  | (kws, t) :: rest =>
    if kws.any (fun k => containsSub ml k) then some t
    else firstKeywordMatch ml rest

/-- models `GitHubCollector._classify_commit_type`. -/
def classifyCommitType (message : List Char) (files : List (List Char)) : CommitType :=
  let message_lower := lowerStr message
  match firstKeywordMatch message_lower classifyKeywordTable with
  | some t => t
  | none =>
    -- check based on files changed (`if files:`)
    if files ≠ [] then
      let test_files := files.countP isTestFile
      let doc_files := files.countP isDocFile
      -- `test_files > len(files) * 0.5` over ints is `2 * test_files > len(files)`
      if 2 * test_files > files.length then .test
      else if 2 * doc_files > files.length then .documentation
      else .other
    else .other

/-- models `GitHubCollector._is_breaking_change` (raw, case-preserved message). -/
def isBreakingChange (message : List Char) : Bool :=
  [chars "breaking change", chars "breaking:", chars "break:", chars "major:",
   chars "BREAKING CHANGE", chars "BREAKING:", chars "!:", chars "major version"
  ].any (fun ind => containsSub message ind)

/-- models `GitHubCollector._affects_security`. -/
def affectsSecurity (message : List Char) (files : List (List Char)) : Bool :=
  let security_keywords :=
    [chars "security", chars "vulnerability", chars "cve", chars "auth",
     chars "authentication", chars "authorization", chars "crypto",
     chars "encrypt", chars "decrypt", chars "hash", chars "token",
     chars "password", chars "secret", chars "credential"]
  let security_files :=
    [chars "auth", chars "security", chars "crypto", chars "password",
     chars "token", chars "credential"]
  let message_lower := lowerStr message
  security_keywords.any (fun k => containsSub message_lower k)
    || files.any (fun f => security_files.any (fun s => containsSub (lowerStr f) s))

/-- models `GitHubCollector._affects_performance` (message only). -/
def affectsPerformance (message : List Char) (_files : List (List Char)) : Bool :=
  let performance_keywords :=
    [chars "performance", chars "optimize", chars "speed", chars "fast",
     chars "slow", chars "cache", chars "memory", chars "cpu",
     chars "benchmark", chars "profil", chars "bottleneck"]
  performance_keywords.any (fun k => containsSub (lowerStr message) k)

/-
  Branch-aware collector: `app/core/github_collector.py`.
  The GitHub API objects are modelled by `GHAuthor`/`GHCommit` (the raw data
  the converter reads); `BranchData` is one branch name together with the
  commit list the API returns for it within the time window.
-/

/-- Raw author data of a GitHub commit (`github_commit.author` or `.committer`). -/
structure GHAuthor where
  name : String
  email : String
  login : Option String := none
  avatar_url : Option String := none
deriving DecidableEq

/-- Raw GitHub commit data as read by `_convert_github_commit`. -/
structure GHCommit where
  sha : String
  message : List Char
  author : Option GHAuthor := none
  committer : Option GHAuthor := none
  timestamp : Int := 0
  html_url : String := ""
  files : List FileChange := []
deriving DecidableEq

/-- models `GitHubCollector._convert_github_commit` (branch is set to the
"main" placeholder, updated by `get_commits_all_branches`). -/
def convertCommit (g : GHCommit) (repo_name : String) : Commit :=
  let file_changes := g.files
  let filenames := file_changes.map (fun fc => fc.filename)
  let author : CommitAuthor :=
    match g.author with
    | some a => { name := a.name, email := a.email, username := a.login,
                  avatar_url := a.avatar_url }
    | none => { name := "Unknown", email := "", username := none, avatar_url := none }
  let committer : CommitAuthor :=
    match g.committer with
    | some a => { name := a.name, email := a.email, username := a.login,
                  avatar_url := a.avatar_url }
    | none => { name := author.name, email := author.email,
                username := author.username, avatar_url := author.avatar_url }
  { sha := g.sha,
    message := g.message,
    author := author,
    committer := committer,
    timestamp := g.timestamp,
    repository := repo_name,
    branch := "main",
    url := g.html_url,
    files_changed := file_changes,
    additions := (file_changes.map (fun fc => fc.additions)).sum,
    deletions := (file_changes.map (fun fc => fc.deletions)).sum,
    total_changes := (file_changes.map (fun fc => fc.changes)).sum,
    commit_type := classifyCommitType g.message filenames,
    is_breaking_change := isBreakingChange g.message,
    affects_security := affectsSecurity g.message filenames,
    affects_performance := affectsPerformance g.message filenames }

/-- One branch: its name and the commits the source supplies for it. -/
structure BranchData where
  name : String
  commits : List GHCommit
deriving DecidableEq

/-- One iteration of the inner loop of `get_commits_all_branches`: the
`all_commits` dict is an insertion-ordered association of commits keyed by
sha (here: a list of commits with distinct shas). A new sha is converted and
inserted with the current branch; a seen sha keeps its stored content, and
its branch label is updated only when it still reads "main" and the current
branch is a different name. -/
def stepCommit (repo_name branch_name : String) (m : List Commit) (g : GHCommit) :
    List Commit :=
  if m.any (fun c => c.sha == g.sha) then
    m.map (fun c =>
      if c.sha == g.sha then
        if c.branch == "main" && branch_name != "main" then
          { c with branch := branch_name }
        else c
      else c)
  else
    m ++ [{ convertCommit g repo_name with branch := branch_name }]

/-- Scan of one branch (inner `for github_commit in branch_commits`). -/
def scanBranch (repo_name : String) (m : List Commit) (b : BranchData) : List Commit :=
  b.commits.foldl (stepCommit repo_name b.name) m

/-- The full branch loop of `get_commits_all_branches` over an initially
empty `all_commits` dict. -/
def mergeBranches (repo_name : String) (branches : List BranchData) : List Commit :=
  branches.foldl (scanBranch repo_name) []

/-- models `GitHubCollector.get_commits_all_branches`: cap the branch list at
`max_branches`, merge with deduplication, sort by timestamp newest first
(Python `list.sort(key=..., reverse=True)`, a stable sort). -/
def getCommitsAllBranches (repo_name : String) (branches : List BranchData)
    (max_branches : Nat) : List Commit :=
  let bs := if max_branches < branches.length then branches.take max_branches
            else branches
  let commits_list := mergeBranches repo_name bs
  List.insertionSort (fun a b => b.timestamp ≤ a.timestamp) commits_list

/-
  Specification-side description of the deduplication result (for claim C1):
  the occurrences of one sha across the scanned branches, the tie-broken
  branch label, and the single record the spec predicts.
-/

/-- All (branch name, raw commit) sightings of sha `s`, in scan order. -/
def shaOccurrences (s : String) (branches : List BranchData) :
    List (String × GHCommit) :=
  (branches.map (fun b =>
    (b.commits.filter (fun g => g.sha == s)).map (fun g => (b.name, g)))).flatten

/-- The branch label the tie-break policy assigns: the first supplier's name,
replaced by the first later non-"main" supplier only when the first name is
the "main" placeholder. -/
def tieBreakLabel (bn : String) (rest : List (String × GHCommit)) : String :=
  if bn == "main" then
    match rest.find? (fun p => p.1 != "main") with
    | some p => p.1
    | none => "main"
  else bn

/-- The record the merged output should hold for a sha with the given
occurrence list: none when never supplied, otherwise exactly one record whose
content is converted from the first sighting and whose branch label follows
the tie-break policy. -/
def expectedFromOccs (repo_name : String) : List (String × GHCommit) → List Commit
  | [] => []
  | (bn, g) :: rest =>
    [{ convertCommit g repo_name with branch := tieBreakLabel bn rest }]

/-
  Data processor: `app/utils/data_processor.py`, class `DataProcessor`.
-/

/-- Python stable sort by timestamp ascending (`sorted(commits, key=...)`). -/
def sortByTimestampAsc (commits : List Commit) : List Commit :=
  List.insertionSort (fun a b => a.timestamp ≤ b.timestamp) commits

/-- Python `defaultdict(int)`-style bucket update: add `v` at key `k`, keeping dict
insertion order (an existing key is updated in place, a new key appended). -/
def addToBucket [BEq κ] (m : List (κ × Nat)) (k : κ) (v : Nat) : List (κ × Nat) :=
  if m.any (fun p => p.1 == k) then
    m.map (fun p => if p.1 == k then (p.1, p.2 + v) else p)
  else m ++ [(k, v)]

/-- Python `max(items, key=lambda x: x[1])` over dict items: the first
maximal entry in iteration order (strictly greater replaces). -/
def maxBySnd {κ : Type} : List (κ × Nat) → Option (κ × Nat)
  | [] => none
  | x :: xs => some (xs.foldl (fun best p => if p.2 > best.2 then p else best) x)

/-- Python `strftime("%Y-%m-%d %H:00")` bucketing of a UTC timestamp: truncation to
the hour, modelled by the hour index (floor division by 3600). -/
def hourKey (t : Int) : Int := t.fdiv 3600

/-- Python `strftime("%Y-%m-%d")` bucketing: the day index (floor division by 86400). -/
def dayKey (t : Int) : Int := t.fdiv 86400

/-- Python `(last - first).total_seconds() / 3600` over a (timestamp-sorted) list;
0 for the empty list (the caller guards non-emptiness). -/
def timeSpanHours (l : List Commit) : Rat :=
  match l with
  | [] => 0
  | c :: t => (((t.getLastD c).timestamp - c.timestamp : Int) : Rat) / 3600

/-- Output of `DataProcessor._analyze_commit_timeline`. The `peak_activity`
sub-dict is flattened into the two peak fields. The source additionally
rounds velocity to 2 decimals for display; the model keeps the exact value
(presentation-only step). -/
structure TimeAnalysis where
  hourly_distribution : List (Int × Nat)
  hourly_changes : List (Int × Nat)
  peak_hour : Option Int
  peak_commits : Nat
  velocity_commits_per_hour : Rat
deriving DecidableEq

/-- models `DataProcessor._analyze_commit_timeline`. -/
def analyzeCommitTimeline (commits : List Commit) : TimeAnalysis :=
  let hourly_commits :=
    commits.foldl (fun m c => addToBucket m (hourKey c.timestamp) 1) []
  let hourly_changes :=
    commits.foldl (fun m c => addToBucket m (hourKey c.timestamp) c.total_changes) []
  let peak := maxBySnd hourly_commits
  let velocity : Rat :=
    match commits with
    | [] => 0
    | c0 :: tl =>
      if tl.length > 0 then
        -- len(commits) > 1; span between commits[0] and commits[-1]
        let span : Rat := (((tl.getLastD c0).timestamp - c0.timestamp : Int) : Rat) / 3600
        if span > 0 then ((c0 :: tl).length : Rat) / span else 0
      else 0
  { hourly_distribution := hourly_commits,
    hourly_changes := hourly_changes,
    peak_hour := peak.map (fun p => p.1),
    peak_commits := match peak with | some p => p.2 | none => 0,
    velocity_commits_per_hour := velocity }

/-- The `defaultdict` value accumulated per contributor email in
`DataProcessor._analyze_contributors`. -/
structure ContribStats where
  commits : Nat := 0
  additions : Nat := 0
  deletions : Nat := 0
  files_changed : List (List Char) := []
  commit_types : List (CommitType × Nat) := []
  first_commit : Option Int := none
  last_commit : Option Int := none
deriving DecidableEq

/-- Model of `stats["files_changed"].update(...)`: a set, modelled as an
insertion-ordered duplicate-free list. -/
def addDistinct [BEq κ] (s : List κ) (xs : List κ) : List κ :=
  xs.foldl (fun acc x => if acc.any (fun y => y == x) then acc else acc ++ [x]) s

/-- Per-commit update of one contributor's accumulated stats. -/
def updateContribStats (s : ContribStats) (c : Commit) : ContribStats :=
  { commits := s.commits + 1,
    additions := s.additions + c.additions,
    deletions := s.deletions + c.deletions,
    files_changed := addDistinct s.files_changed (c.files_changed.map (fun f => f.filename)),
    commit_types := addToBucket s.commit_types c.commit_type 1,
    first_commit :=
      match s.first_commit with
      | none => some c.timestamp
      | some t => some (if c.timestamp < t then c.timestamp else t),
    last_commit :=
      match s.last_commit with
      | none => some c.timestamp
      | some t => some (if c.timestamp > t then c.timestamp else t) }

/-- The `contributor_stats` dict keyed by author email (insertion ordered). -/
def contributorStats (commits : List Commit) : List (String × ContribStats) :=
  commits.foldl (fun m c =>
    if m.any (fun p => p.1 == c.author.email) then
      m.map (fun p =>
        if p.1 == c.author.email then (p.1, updateContribStats p.2 c) else p)
    else m ++ [(c.author.email, updateContribStats {} c)]) []

/-- One serialized entry of the contributors report (the dict stored under
the contributor's display name). -/
structure ContributorEntry where
  email : String
  commits : Nat
  additions : Nat
  deletions : Nat
  files_changed : Nat
  dominant_type : String
  activity_span_hours : Rat
deriving DecidableEq

/-- Serialization of one email's stats in `_analyze_contributors`:
the display name is that of the first commit with this email (falling back
to the email's local part), `dominant_type` the most frequent category. -/
def contributorEntry (commits : List Commit) (email : String) (s : ContribStats) :
    String × ContributorEntry :=
  let contributor_name :=
    match commits.find? (fun c => c.author.email == email) with
    | some c => c.author.name
    | none => (email.takeWhile (fun ch => ch ≠ '@'))
  (contributor_name,
   { email := email,
     commits := s.commits,
     additions := s.additions,
     deletions := s.deletions,
     files_changed := s.files_changed.length,
     dominant_type :=
       match maxBySnd s.commit_types with
       | some p => p.1.value
       | none => "unknown",
     activity_span_hours :=
       match s.last_commit, s.first_commit with
       | some lastT, some firstT => ((lastT - firstT : Int) : Rat) / 3600
       | _, _ => 0 })

/-- Dict assignment `result[name] = entry`: update in place, append if new. -/
def setByKey [BEq κ] (m : List (κ × α)) (k : κ) (v : α) : List (κ × α) :=
  if m.any (fun p => p.1 == k) then
    m.map (fun p => if p.1 == k then (k, v) else p)
  else m ++ [(k, v)]

/-- Output of `DataProcessor._analyze_contributors`. -/
structure ContributorAnalysis where
  total_contributors : Nat
  top_contributors : List (String × ContributorEntry)
  collaboration_score : Rat
deriving DecidableEq

/-- models `DataProcessor._analyze_contributors`. The `result` dict is keyed
by the contributor display name. -/
def analyzeContributors (commits : List Commit) : ContributorAnalysis :=
  let result := (contributorStats commits).foldl
    (fun r p =>
      let e := contributorEntry commits p.1 p.2
      setByKey r e.1 e.2) []
  let sorted_contributors :=
    List.insertionSort (fun a b => b.2.commits ≤ a.2.commits) result
  { total_contributors := result.length,
    top_contributors := sorted_contributors.take 10,
    collaboration_score :=
      if commits.length ≠ 0 then (result.length : Rat) / commits.length else 0 }

/-- The `defaultdict` value accumulated per filename in
`DataProcessor._analyze_file_changes`. -/
structure FileStats where
  changes : Nat := 0
  commits : Nat := 0
  additions : Nat := 0
  deletions : Nat := 0
  contributors : List String := []
deriving DecidableEq

/-- The `file_stats` dict keyed by filename. -/
def fileStats (commits : List Commit) : List (List Char × FileStats) :=
  commits.foldl (fun m c =>
    c.files_changed.foldl (fun m fc =>
      let upd := fun (s : FileStats) =>
        { changes := s.changes + fc.changes,
          commits := s.commits + 1,
          additions := s.additions + fc.additions,
          deletions := s.deletions + fc.deletions,
          contributors := addDistinct s.contributors [c.author.email] }
      if m.any (fun p => p.1 == fc.filename) then
        m.map (fun p => if p.1 == fc.filename then (p.1, upd p.2) else p)
      else m ++ [(fc.filename, upd {})]) m) []

/-- Model of `filename.split('.')[-1].lower()`: lowered text after the last dot. -/
def fileExtensionOf (f : List Char) : List Char :=
  lowerStr ((f.reverse.takeWhile (fun ch => ch ≠ '.')).reverse)

/-- Model of `'/'.join(filename.split('/')[:-1])`: the parent directory path. -/
def directoryOf (f : List Char) : List Char :=
  ((f.reverse.dropWhile (fun ch => ch ≠ '/')).reverse).dropLast

/-- One serialized entry of the files report. -/
structure FileEntry where
  changes : Nat
  commits : Nat
  additions : Nat
  deletions : Nat
  contributors : Nat
  volatility : Rat
deriving DecidableEq

/-- Output of `DataProcessor._analyze_file_changes`. -/
structure FileAnalysis where
  total_files : Nat
  most_changed_files : List (List Char × FileEntry)
  file_extensions : List (List Char × Nat)
  directory_changes : List (List Char × Nat)
  average_changes_per_file : Rat
deriving DecidableEq

/-- models `DataProcessor._analyze_file_changes`. -/
def analyzeFileChanges (commits : List Commit) : FileAnalysis :=
  let stats := fileStats commits
  let file_analysis : List (List Char × FileEntry) :=
    stats.map (fun p =>
      (p.1,
       { changes := p.2.changes,
         commits := p.2.commits,
         additions := p.2.additions,
         deletions := p.2.deletions,
         contributors := p.2.contributors.length,
         volatility :=
           if p.2.commits > 0 then (p.2.changes : Rat) / p.2.commits else 0 }))
  let file_extensions := stats.foldl
    (fun m p =>
      if containsSub p.1 (chars ".") then
        addToBucket m (fileExtensionOf p.1) p.2.changes
      else m) []
  let directory_changes := stats.foldl
    (fun m p =>
      if containsSub p.1 (chars "/") then
        addToBucket m (directoryOf p.1) p.2.changes
      else m) []
  let most_changed :=
    List.insertionSort (fun a b => b.2.changes ≤ a.2.changes) file_analysis
  { total_files := file_analysis.length,
    most_changed_files := most_changed.take 20,
    file_extensions :=
      (List.insertionSort (fun a b => b.2 ≤ a.2) file_extensions).take 10,
    directory_changes :=
      (List.insertionSort (fun a b => b.2 ≤ a.2) directory_changes).take 10,
    average_changes_per_file :=
      if file_analysis.length ≠ 0 then
        ((file_analysis.map (fun p => p.2.changes)).sum : Rat) / file_analysis.length
      else 0 }

/-- models `DataProcessor._classify_development_phase`, from the
`type_ratios` dict (ratio 0 for a missing category). -/
def classifyDevelopmentPhase (type_ratios : List (CommitType × Rat)) : String :=
  let lookup := fun (t : CommitType) =>
    match type_ratios.find? (fun p => p.1 == t) with
    | some p => p.2
    | none => 0
  let feature_share := lookup .feature
  let bugfix_share := lookup .bugfix
  let refactor_share := lookup .refactor
  if feature_share > 2/5 then "active_development"
  else if bugfix_share > 1/2 then "stabilization"
  else if refactor_share > 3/10 then "maintenance"
  else if feature_share > 1/5 ∧ bugfix_share > 1/5 then "balanced_development"
  else "mixed_activity"

/-- Output of `DataProcessor._analyze_commit_type_trends`. -/
structure TypeTrends where
  type_distribution : List (CommitType × Nat)
  type_ratios : List (CommitType × Rat)
  dominant_type : Option (CommitType × Nat)
  type_timeline : List (Int × List (CommitType × Nat))
  development_phase : String
deriving DecidableEq

/-- models `DataProcessor._analyze_commit_type_trends`. `Counter` iteration
order is first-encounter order, like the dict model. -/
def analyzeCommitTypeTrends (commits : List Commit) : TypeTrends :=
  let type_counts :=
    commits.foldl (fun m c => addToBucket m c.commit_type 1) []
  let type_timeline := commits.foldl
    (fun m c =>
      let day := dayKey c.timestamp
      if m.any (fun p => p.1 == day) then
        m.map (fun p =>
          if p.1 == day then (p.1, addToBucket p.2 c.commit_type 1) else p)
      else m ++ [(day, [(c.commit_type, 1)])]) []
  let total_commits := commits.length
  let type_ratios : List (CommitType × Rat) :=
    if total_commits > 0 then
      type_counts.map (fun p => (p.1, (p.2 : Rat) / total_commits))
    else []
  { type_distribution := type_counts,
    type_ratios := type_ratios,
    dominant_type := maxBySnd type_counts,
    type_timeline := type_timeline,
    development_phase := classifyDevelopmentPhase type_ratios }

/-- The fixed per-category weight table of `_calculate_impact_score`
(`type_weights.get(commit_type, 0.05)`; only `OTHER` is absent from the
dict, so it takes the 0.05 default). -/
def typeWeight : CommitType → Rat
  | .security => 2/5
  | .feature => 3/10
  | .bugfix => 1/5
  | .performance => 1/5
  | .refactor => 1/10
  | .documentation => 1/20
  | .test => 1/20
  | .style => 1/50
  | .chore => 1/50
  | .other => 1/20

/-- models `DataProcessor._calculate_impact_score` (additive components,
then capped at 1.0). -/
def impactScore (c : Commit) : Rat :=
  let score : Rat :=
    (if c.files_count > 10 then 3/10
     else if c.files_count > 5 then 2/10
     else if c.files_count > 1 then 1/10
     else 0)
    + (if c.total_changes > 500 then 3/10
       else if c.total_changes > 100 then 2/10
       else if c.total_changes > 20 then 1/10
       else 0)
    + typeWeight c.commit_type
    + (if c.is_breaking_change then 2/10 else 0)
    + (if c.affects_security then 2/10 else 0)
  min score 1

/-- models `app/models/commit.py` risk strings returned by
`_assess_risk_level` as a closed enum. -/
inductive RiskLevel where
  | no_changes
  | low
  | medium
  | high
deriving DecidableEq

/-- models `DataProcessor._assess_risk_level`. -/
def assessRiskLevel (commits : List Commit) : RiskLevel :=
  let total_commits := commits.length
  if total_commits = 0 then .no_changes
  else
    let breaking_count := commits.countP (fun c => c.is_breaking_change)
    let security_count := commits.countP (fun c => c.affects_security)
    let high_impact_count := commits.countP (fun c => decide ((7:Rat)/10 ≤ impactScore c))
    if (1:Rat)/10 < (breaking_count : Rat) / total_commits
        ∨ (1:Rat)/5 < (security_count : Rat) / total_commits then .high
    else if (3:Rat)/10 < (high_impact_count : Rat) / total_commits
        ∨ (0:Rat) < (breaking_count : Rat) / total_commits then .medium
    else .low

/-- The ordering low < medium < high of risk levels stated by the spec
(`no_changes` is the empty-input marker, placed at the bottom). -/
def riskRank : RiskLevel → Nat
  | .no_changes => 0
  | .low => 0
  | .medium => 1
  | .high => 2

/-- One entry of `notable_commits` in `_analyze_commit_impact`. -/
structure NotableCommit where
  sha : String
  message : List Char
  impact_score : Rat
  commit_type : CommitType
deriving DecidableEq

/-- The dict built for one notable commit: short sha, first line of the
message truncated to 100 chars, score, category value. -/
def notableEntry (c : Commit) : NotableCommit :=
  { sha := c.short_sha,
    message := (c.message.takeWhile (fun ch => ch ≠ '\n')).take 100,
    impact_score := impactScore c,
    commit_type := c.commit_type }

/-- Output of `DataProcessor._analyze_commit_impact`. -/
structure ImpactAnalysis where
  high_count : Nat
  medium_count : Nat
  low_count : Nat
  security_updates : Nat
  breaking_changes : Nat
  risk_assessment : RiskLevel
  notable_commits : List NotableCommit
deriving DecidableEq

/-- models `DataProcessor._analyze_commit_impact`. The source classifies by
one `if score >= 0.7 / elif score >= 0.4 / else` loop appending to three
lists; that loop builds exactly the three in-order filters below. -/
def analyzeCommitImpact (commits : List Commit) : ImpactAnalysis :=
  let high_impact := commits.filter (fun c => decide ((7:Rat)/10 ≤ impactScore c))
  let medium_impact := commits.filter (fun c =>
    decide (impactScore c < 7/10 ∧ (4:Rat)/10 ≤ impactScore c))
  let low_impact := commits.filter (fun c => decide (impactScore c < (4:Rat)/10))
  { high_count := high_impact.length,
    medium_count := medium_impact.length,
    low_count := low_impact.length,
    security_updates := (commits.filter (fun c => c.affects_security)).length,
    breaking_changes := (commits.filter (fun c => c.is_breaking_change)).length,
    risk_assessment := assessRiskLevel commits,
    notable_commits := (high_impact.take 5).map notableEntry }

/-- The `summary` sub-dict of `analyze_commit_trends`. -/
structure TrendSummary where
  total_commits : Nat
  time_span : Rat
  unique_contributors : Nat
  files_affected : Nat
  total_changes : Nat
deriving DecidableEq

/-- The full (non-error) report of `analyze_commit_trends`. -/
structure TrendData where
  summary : TrendSummary
  time_analysis : TimeAnalysis
  contributors : ContributorAnalysis
  files : FileAnalysis
  types : TypeTrends
  impact : ImpactAnalysis
deriving DecidableEq

/-- Return value of `analyze_commit_trends`: either the explicit error dict
or the report. -/
inductive TrendReport where
  | error (msg : String)
  | report (d : TrendData)
deriving DecidableEq

/-- models `DataProcessor.analyze_commit_trends`. -/
def analyzeCommitTrends (commits : List Commit) : TrendReport :=
  if commits = [] then .error "No commits to analyze"
  else
    let sorted_commits := sortByTimestampAsc commits
    .report
      { summary :=
          { total_commits := commits.length,
            time_span := timeSpanHours sorted_commits,
            unique_contributors := ((commits.map (fun c => c.author.email)).dedup).length,
            files_affected :=
              (((commits.map (fun c => c.files_changed.map (fun f => f.filename))).flatten).dedup).length,
            total_changes := (commits.map (fun c => c.total_changes)).sum },
        time_analysis := analyzeCommitTimeline sorted_commits,
        contributors := analyzeContributors sorted_commits,
        files := analyzeFileChanges sorted_commits,
        types := analyzeCommitTypeTrends sorted_commits,
        impact := analyzeCommitImpact sorted_commits }

/-- The insight messages of `DataProcessor.generate_insights`, one
constructor per f-string template of the source, carrying the interpolated
number or label. `Insight.render` gives the exact message text. -/
inductive Insight where
  | noData
  | highActivity (n : Nat)
  | moderateActivity (n : Nat)
  | lightActivity (n : Nat)
  | strongCollaboration (n : Nat)
  | goodCollaboration (n : Nat)
  | extensiveChanges (n : Nat)
  | moderateScope (n : Nat)
  | phaseMessage (phase : String)
  | securityUpdates (n : Nat)
  | breakingChanges (n : Nat)
  | riskHigh
  | riskMedium
  | riskLow
  | changesAssessed
deriving DecidableEq

/-- The message string of each insight (the f-string templates and the
`phase_messages` / `risk_messages` tables of `generate_insights`). -/
def Insight.render : Insight → String
  | .noData => "No commit data available for analysis."
  | .highActivity n => "🚀 High activity period with " ++ toString n ++ " commits"
  | .moderateActivity n => "📈 Moderate development activity with " ++ toString n ++ " commits"
  | .lightActivity n => "📝 Light development activity with " ++ toString n ++ " commits"
  | .strongCollaboration n => "👥 Strong team collaboration with " ++ toString n ++ " contributors"
  | .goodCollaboration n => "🤝 Good team collaboration with " ++ toString n ++ " contributors"
  | .extensiveChanges n => "🔄 Extensive changes across " ++ toString n ++ " files"
  | .moderateScope n => "📁 Moderate scope with " ++ toString n ++ " files affected"
  | .phaseMessage p =>
    if p = "active_development" then "🛠️ Active feature development phase"
    else if p = "stabilization" then "🔧 Focus on bug fixes and stabilization"
    else if p = "maintenance" then "🧹 Maintenance and refactoring period"
    else if p = "balanced_development" then "⚖️ Balanced development approach"
    else if p = "mixed_activity" then "🔀 Mixed development activities"
    else "📊 Development activity detected"
  | .securityUpdates n => "🔒 " ++ toString n ++ " security updates included"
  | .breakingChanges n => "⚠️ " ++ toString n ++ " breaking changes detected"
  | .riskHigh => "🔴 High-risk changes - careful deployment recommended"
  | .riskMedium => "🟡 Medium-risk changes - standard review process"
  | .riskLow => "🟢 Low-risk changes - safe for deployment"
  | .changesAssessed => "📊 Changes assessed"

/-- Table `risk_messages.get(risk_level, ...)` with its default. -/
def riskInsightOf : RiskLevel → Insight
  | .high => .riskHigh
  | .medium => .riskMedium
  | .low => .riskLow
  | .no_changes => .changesAssessed

/-- models `DataProcessor.generate_insights`: ordered insight list built
from the trend report, truncated to the top 8. -/
def generateInsights (cc : CommitCollection) : List Insight :=
  match analyzeCommitTrends cc.commits with
  | .error _ => [.noData]
  | .report d =>
    let s := d.summary
    let insights : List Insight :=
      (if s.total_commits > 20 then [.highActivity s.total_commits]
       else if s.total_commits > 10 then [.moderateActivity s.total_commits]
       else [.lightActivity s.total_commits])
      ++ (if s.unique_contributors > 5 then [.strongCollaboration s.unique_contributors]
          else if s.unique_contributors > 2 then [.goodCollaboration s.unique_contributors]
          else [])
      ++ (if s.files_affected > 50 then [.extensiveChanges s.files_affected]
          else if s.files_affected > 20 then [.moderateScope s.files_affected]
          else [])
      ++ (if d.types.development_phase ≠ "" then [.phaseMessage d.types.development_phase]
          else [])
      ++ (if d.impact.security_updates > 0 then [.securityUpdates d.impact.security_updates]
          else [])
      ++ (if d.impact.breaking_changes > 0 then [.breakingChanges d.impact.breaking_changes]
          else [])
      ++ [riskInsightOf d.impact.risk_assessment]
    insights.take 8

/-
  Concrete inputs used by witnesses and counterexamples.
-/

/-- A file change touching `a.py` with no line changes. -/
def fcZero : FileChange :=
  { filename := chars "a.py", additions := 0, deletions := 0, changes := 0,
    status := "modified" }

/-- A security-category, security-affecting commit touching two files
(impact score 0.7, or 0.9 when `breaking` is set). -/
def notableC (sha : String) (breaking : Bool) : Commit :=
  { sha := sha, message := chars "security: tighten auth checks",
    author := {}, committer := {}, timestamp := 0, repository := "r",
    branch := "main", url := "",
    files_changed := [fcZero, fcZero], total_changes := 0,
    commit_type := .security, is_breaking_change := breaking,
    affects_security := true }

/-- Five 0.7-score commits followed by one 0.9-score commit. -/
def notableInput : List Commit :=
  [notableC "aaaaaa1" false, notableC "aaaaaa2" false, notableC "aaaaaa3" false,
   notableC "aaaaaa4" false, notableC "aaaaaa5" false, notableC "bbbbbb6" true]

/-- A minimal low-impact commit (no files, no changes, `other` category). -/
def lowC : Commit :=
  { sha := "lowsha0", message := chars "misc", author := {}, committer := {},
    timestamp := 5, repository := "r", branch := "main", url := "" }

/-- Input combining high- and low-impact commits. -/
def notableWitnessInput : List Commit := notableInput ++ [lowC]

/-- Commit by "Ann" under her first email, 3 additions. -/
def cAnnA : Commit :=
  { sha := "annsha1", message := chars "feat: one",
    author := { name := "Ann", email := "a@x.com" }, committer := {},
    timestamp := 0, repository := "r", branch := "main", url := "",
    additions := 3, deletions := 1, commit_type := .feature }

/-- Commit by a different "Ann" (same display name, different email),
7 additions. -/
def cAnnB : Commit :=
  { sha := "annsha2", message := chars "fix: two",
    author := { name := "Ann", email := "b@y.com" }, committer := {},
    timestamp := 10, repository := "r", branch := "main", url := "",
    additions := 7, deletions := 2, commit_type := .bugfix }

/-- A zero-size chore commit with no flags. -/
def cZeroChore : Commit :=
  { sha := "choresha", message := chars "chore: bump deps", author := {},
    committer := {}, timestamp := 0, repository := "r", branch := "main",
    url := "", commit_type := .chore }

/-- One-hour collection holding five commits. -/
def ccPos : CommitCollection :=
  { commits := [], start_time := 0, end_time := 3600, repository := "r",
    total_commits := 5, total_additions := 0, total_deletions := 0,
    total_files_changed := 0 }

/-- Zero-length (start == end) collection. -/
def ccZero : CommitCollection :=
  { commits := [], start_time := 100, end_time := 100, repository := "r",
    total_commits := 5, total_additions := 0, total_deletions := 0,
    total_files_changed := 0 }

/-- Collection with an empty commit list. -/
def ccEmpty : CommitCollection :=
  { commits := [], start_time := 0, end_time := 3600, repository := "r",
    total_commits := 0, total_additions := 0, total_deletions := 0,
    total_files_changed := 0 }

/-- Collection holding one breaking, security-affecting bugfix commit. -/
def ccOne : CommitCollection :=
  { commits := [{ sha := "onesha1", message := chars "fix: auth bypass",
                  author := {}, committer := {}, timestamp := 0,
                  repository := "r", branch := "main", url := "",
                  commit_type := .bugfix, is_breaking_change := true,
                  affects_security := true }],
    start_time := 0, end_time := 3600, repository := "r", total_commits := 1,
    total_additions := 0, total_deletions := 0, total_files_changed := 0 }

/-- All sightings of every sha across all scanned branches, in scan order
(the flattening of the nested branch loop). -/
def flatOccs (branches : List BranchData) : List (String × GHCommit) :=
  (branches.map (fun b => b.commits.map (fun g => (b.name, g)))).flatten

theorem isPrefixOf_append_left (p q l : List Char)
    (h : (p ++ q).isPrefixOf l = true) : p.isPrefixOf l = true := by
  induction p generalizing l with
  | nil => cases l <;> rfl
  | cons a p' ih =>
    cases l with
    | nil => simp [List.isPrefixOf] at h
    | cons b l' =>
      simp only [List.cons_append, List.isPrefixOf, Bool.and_eq_true] at h ⊢
      exact ⟨h.1, ih l' h.2⟩

theorem containsSub_append_left (hay p q : List Char)
    (h : containsSub hay (p ++ q) = true) : containsSub hay p = true := by
  induction hay with
  | nil =>
    simp only [containsSub] at h ⊢
    exact isPrefixOf_append_left p q [] h
  | cons c t ih =>
    simp only [containsSub, Bool.or_eq_true] at h ⊢
    rcases h with h | h
    · exact Or.inl (isPrefixOf_append_left p q _ h)
    · exact Or.inr (ih h)

theorem containsSub_false_of (hay p q : List Char)
    (h : containsSub hay p = false) : containsSub hay (p ++ q) = false := by
  cases hx : containsSub hay (p ++ q) with
  | false => rfl
  | true => rw [containsSub_append_left hay p q hx] at h; exact h.symm ▸ rfl

/-- C7: on an empty commit list `analyze_commit_trends` returns the
designated explicit empty report (the error dict with message
"No commits to analyze") instead of raising, and `_assess_risk_level`
reports `no_changes` for the empty set. -/
theorem trends_empty_error :
    analyzeCommitTrends ([] : List Commit) = .error "No commits to analyze"
      ∧ assessRiskLevel [] = .no_changes := by
  constructor <;> rfl

/-- C8: for every `CommitCollection`, `commits_per_hour` equals
`total_commits / time_period_hours` whenever `time_period_hours > 0` and is
exactly 0 whenever `time_period_hours ≤ 0` (including `start == end`); the
function is total, so no division error can occur. -/
theorem commits_per_hour_guarded (cc : CommitCollection) :
    (0 < cc.time_period_hours →
      cc.commits_per_hour = (cc.total_commits : Rat) / cc.time_period_hours)
    ∧ (cc.time_period_hours ≤ 0 → cc.commits_per_hour = 0) := by
  constructor
  · intro h
    simp [CommitCollection.commits_per_hour, h]
  · intro h
    simp [CommitCollection.commits_per_hour, not_lt.mpr h]

/-- C8 witness: the 1-hour 5-commit collection takes the division branch and
the zero-length collection takes the 0 fallback. -/
theorem commits_per_hour_guarded_witness :
    ccPos.commits_per_hour = (ccPos.total_commits : Rat) / ccPos.time_period_hours
      ∧ ccZero.commits_per_hour = 0 :=
  ⟨(commits_per_hour_guarded ccPos).1
     (by norm_num [CommitCollection.time_period_hours, ccPos]),
   (commits_per_hour_guarded ccZero).2
     (by norm_num [CommitCollection.time_period_hours, ccZero])⟩

theorem typeWeight_nonneg (t : CommitType) : 0 ≤ typeWeight t := by
  cases t <;> norm_num [typeWeight]

theorem typeWeight_le_one (t : CommitType) : typeWeight t ≤ 1 := by
  cases t <;> norm_num [typeWeight]

theorem typeWeight_min (t : CommitType) : (1:Rat)/50 ≤ typeWeight t := by
  cases t <;> norm_num [typeWeight]

/-- C3: for every commit (any file count, change count, category and flag
combination) the impact score lies in [0, 1]; a commit with 0 files changed
and 0 total changes (and no breaking or security flag, per the spec's
"score = category-weight only") scores exactly its category weight, which is
at least 0.02. -/
theorem impact_score_unit_interval (c : Commit) :
    0 ≤ impactScore c ∧ impactScore c ≤ 1 ∧
    (c.files_count = 0 → c.total_changes = 0 → c.is_breaking_change = false →
      c.affects_security = false →
      impactScore c = typeWeight c.commit_type
        ∧ (1:Rat)/50 ≤ typeWeight c.commit_type) := by
  refine ⟨?_, ?_, ?_⟩
  · rw [impactScore]
    apply le_min _ (by norm_num)
    have h1 : (0:Rat) ≤ (if c.files_count > 10 then (3:Rat)/10
        else if c.files_count > 5 then 2/10 else if c.files_count > 1 then 1/10 else 0) := by
      split_ifs <;> norm_num
    have h2 : (0:Rat) ≤ (if c.total_changes > 500 then (3:Rat)/10
        else if c.total_changes > 100 then 2/10 else if c.total_changes > 20 then 1/10 else 0) := by
      split_ifs <;> norm_num
    have h3 := typeWeight_nonneg c.commit_type
    have h4 : (0:Rat) ≤ (if c.is_breaking_change then (2:Rat)/10 else 0) := by
      split_ifs <;> norm_num
    have h5 : (0:Rat) ≤ (if c.affects_security then (2:Rat)/10 else 0) := by
      split_ifs <;> norm_num
    positivity
  · rw [impactScore]
    exact min_le_right _ _
  · intro hf ht hb hs
    refine ⟨?_, typeWeight_min _⟩
    rw [impactScore, hf, ht, hb, hs]
    norm_num
    exact typeWeight_le_one c.commit_type

/-- C3 witness: the zero-size chore commit scores exactly its category
weight and lies in the unit interval. -/
theorem impact_score_unit_interval_witness :
    0 ≤ impactScore cZeroChore ∧ impactScore cZeroChore ≤ 1 ∧
      impactScore cZeroChore = typeWeight cZeroChore.commit_type :=
  ⟨(impact_score_unit_interval cZeroChore).1,
   (impact_score_unit_interval cZeroChore).2.1,
   ((impact_score_unit_interval cZeroChore).2.2 rfl rfl rfl rfl).1⟩

/-- C10: for every collection with zero commits, `generate_insights`
returns exactly the one-element list carrying
"No commit data available for analysis." — it neither raises nor returns an
empty list. -/
theorem insights_on_empty (cc : CommitCollection) (h : cc.commits = []) :
    generateInsights cc = [.noData]
      ∧ (generateInsights cc).map Insight.render
          = ["No commit data available for analysis."] := by
  have he : analyzeCommitTrends cc.commits = .error "No commits to analyze" := by
    rw [h]; rfl
  constructor
  · rw [generateInsights, he]
  · rw [generateInsights, he]
    rfl

/-- C10 witness: the concrete empty collection produces exactly the
no-data insight. -/
theorem insights_on_empty_witness :
    generateInsights ccEmpty = [.noData] :=
  (insights_on_empty ccEmpty rfl).1

/-- C2: every commit message containing "fix:" (case-insensitively) and
none of the higher-priority tokens feat/add/new/security/perf classifies as
BUGFIX, for every changed-file list. -/
theorem classify_fix_is_bugfix (message : List Char) (files : List (List Char))
    (hfix : containsSub (lowerStr message) (chars "fix:") = true)
    (hfeat : containsSub (lowerStr message) (chars "feat") = false)
    (hadd : containsSub (lowerStr message) (chars "add") = false)
    (hnew : containsSub (lowerStr message) (chars "new") = false)
    (_hsec : containsSub (lowerStr message) (chars "security") = false)
    (_hperf : containsSub (lowerStr message) (chars "perf") = false) :
    classifyCommitType message files = .bugfix := by
  have e1 : containsSub (lowerStr message) (chars "feat:") = false := by
    have h := containsSub_false_of _ _ (chars ":") hfeat
    rwa [show chars "feat" ++ chars ":" = chars "feat:" by rfl] at h
  have e2 : containsSub (lowerStr message) (chars "feature:") = false := by
    have h := containsSub_false_of _ _ (chars "ure:") hfeat
    rwa [show chars "feat" ++ chars "ure:" = chars "feature:" by rfl] at h
  have e3 : containsSub (lowerStr message) (chars "add:") = false := by
    have h := containsSub_false_of _ _ (chars ":") hadd
    rwa [show chars "add" ++ chars ":" = chars "add:" by rfl] at h
  have e4 : containsSub (lowerStr message) (chars "new:") = false := by
    have h := containsSub_false_of _ _ (chars ":") hnew
    rwa [show chars "new" ++ chars ":" = chars "new:" by rfl] at h
  rw [classifyCommitType]
  simp only [classifyKeywordTable, firstKeywordMatch, List.any_cons, List.any_nil,
    e1, e2, e3, e4, hfix, Bool.or_self, Bool.or_false, Bool.false_or,
    if_false, if_true, Bool.or_true, Bool.true_or]
  simp

/-- C2 witness: a concrete "Fix: ..." message with a file list classifies
as BUGFIX. -/
theorem classify_fix_is_bugfix_witness :
    classifyCommitType (chars "Fix: resolve crash on startup") [chars "x.py"]
      = .bugfix :=
  classify_fix_is_bugfix _ _ (by decide) (by decide) (by decide) (by decide)
    (by decide) (by decide)

/-- C6: evaluation at the failing input. The accumulation in
`_analyze_contributors` is keyed by author email, but the serialized report
is keyed by display name: two authors sharing the name "Ann" under different
emails end up as ONE reported contributor (`total_contributors = 1`), whose
totals are those of the last-processed email group (7 additions,
1 commit) — the first author's totals are silently dropped, contradicting
the claim that the report counts them as two distinct contributors. -/
theorem contributor_report_name_collision :
    cAnnA.author.name = cAnnB.author.name ∧
    cAnnA.author.email ≠ cAnnB.author.email ∧
    (analyzeContributors [cAnnA, cAnnB]).total_contributors = 1 ∧
    (analyzeContributors [cAnnA, cAnnB]).top_contributors.map
        (fun p => (p.1, p.2.email, p.2.commits, p.2.additions, p.2.deletions))
      = [("Ann", "b@y.com", 1, 7, 2)] := by
  refine ⟨rfl, by decide, by decide, by decide⟩

theorem impactScore_notableC (sha : String) (b : Bool) :
    impactScore (notableC sha b) = if b then (9:Rat)/10 else 7/10 := by
  cases b <;>
    norm_num [impactScore, notableC, typeWeight, Commit.files_count, fcZero, min_def]

theorem notable_eval :
    (analyzeCommitImpact notableInput).notable_commits
      = [notableEntry (notableC "aaaaaa1" false), notableEntry (notableC "aaaaaa2" false),
         notableEntry (notableC "aaaaaa3" false), notableEntry (notableC "aaaaaa4" false),
         notableEntry (notableC "aaaaaa5" false)] := by
  simp only [analyzeCommitImpact, notableInput, List.filter_cons, List.filter_nil,
    impactScore_notableC, decide_eq_true_eq]
  norm_num [List.take]

/-- C5 counterexample: the claim "every commit reported has an impact score
greater than or equal to that of every commit in the set that is not
reported" is false at `notableInput`: the sixth commit (score 0.9) is not
among the five reported notable commits (all score 0.7), because the source
takes the first five high-tier commits in input order, not the five highest
by score. -/
theorem notable_commits_not_top5 :
    ¬ (∀ e ∈ (analyzeCommitImpact notableInput).notable_commits,
        ∀ c ∈ notableInput,
          (∀ e2 ∈ (analyzeCommitImpact notableInput).notable_commits,
            e2.sha ≠ c.short_sha) →
          impactScore c ≤ e.impact_score) := by
  intro hall
  have hmem : notableEntry (notableC "aaaaaa1" false)
      ∈ (analyzeCommitImpact notableInput).notable_commits := by
    rw [notable_eval]; simp
  have hc : notableC "bbbbbb6" true ∈ notableInput := by simp [notableInput]
  have hnr : ∀ e2 ∈ (analyzeCommitImpact notableInput).notable_commits,
      e2.sha ≠ (notableC "bbbbbb6" true).short_sha := by
    rw [notable_eval]
    intro e2 he2
    fin_cases he2 <;> decide
  have hle := hall _ hmem _ hc hnr
  simp only [notableEntry, impactScore_notableC] at hle
  norm_num at hle

/-- C5 (amended): `notable_commits` lists at most 5 entries — the first
up-to-5 commits in input order whose impact score is ≥ 0.7 — each reported
with short sha, truncated first message line, impact score and category;
every reported commit scores ≥ 0.7 and hence at least as high as every
commit outside the high-impact tier. -/
theorem notable_commits_spec (commits : List Commit) :
    (analyzeCommitImpact commits).notable_commits.length ≤ 5 ∧
    (analyzeCommitImpact commits).notable_commits
      = ((commits.filter (fun c => decide ((7:Rat)/10 ≤ impactScore c))).take 5).map
          notableEntry ∧
    (∀ e ∈ (analyzeCommitImpact commits).notable_commits,
      (7:Rat)/10 ≤ e.impact_score) ∧
    (∀ e ∈ (analyzeCommitImpact commits).notable_commits, ∀ c ∈ commits,
      impactScore c < (7:Rat)/10 → impactScore c ≤ e.impact_score) := by
  have h2 : (analyzeCommitImpact commits).notable_commits
      = ((commits.filter (fun c => decide ((7:Rat)/10 ≤ impactScore c))).take 5).map
          notableEntry := rfl
  have h3 : ∀ e ∈ (analyzeCommitImpact commits).notable_commits,
      (7:Rat)/10 ≤ e.impact_score := by
    intro e he
    rw [h2] at he
    obtain ⟨c, hc, rfl⟩ := List.mem_map.mp he
    have hc' := List.mem_of_mem_take hc
    have hmem := (List.mem_filter.mp hc').2
    simp only [decide_eq_true_eq] at hmem
    simpa [notableEntry] using hmem
  refine ⟨?_, h2, h3, fun e he c _ hlt => le_trans (le_of_lt hlt) (h3 e he)⟩
  rw [h2, List.length_map]
  exact List.length_take_le _ _

/-- C5 witness: at a concrete mixed input the notable list is within the
bound and a reported 0.7-score entry dominates the low-impact commit. -/
theorem notable_commits_spec_witness :
    (analyzeCommitImpact notableWitnessInput).notable_commits.length ≤ 5 ∧
    impactScore lowC
      ≤ (notableEntry (notableC "aaaaaa1" false)).impact_score :=
  ⟨(notable_commits_spec notableWitnessInput).1,
   (notable_commits_spec notableWitnessInput).2.2.2
     (notableEntry (notableC "aaaaaa1" false))
     (by
       have h : (analyzeCommitImpact notableWitnessInput).notable_commits
           = [notableEntry (notableC "aaaaaa1" false), notableEntry (notableC "aaaaaa2" false),
              notableEntry (notableC "aaaaaa3" false), notableEntry (notableC "aaaaaa4" false),
              notableEntry (notableC "aaaaaa5" false)] := by
         simp only [analyzeCommitImpact, notableWitnessInput, notableInput, lowC,
           List.append_nil, List.cons_append, List.nil_append,
           List.filter_cons, List.filter_nil, impactScore_notableC, decide_eq_true_eq]
         norm_num [List.take, impactScore, typeWeight, Commit.files_count, min_def]
       rw [h]; simp)
     lowC (by simp [notableWitnessInput])
     (by norm_num [impactScore, lowC, typeWeight, Commit.files_count, min_def])⟩

theorem assessRiskLevel_of_ne_nil (commits : List Commit) (h : commits ≠ []) :
    assessRiskLevel commits =
      if (1:Rat)/10 < (commits.countP (fun c => c.is_breaking_change) : Rat)
            / commits.length
          ∨ (1:Rat)/5 < (commits.countP (fun c => c.affects_security) : Rat)
            / commits.length
      then .high
      else if (3:Rat)/10
            < (commits.countP (fun c => decide ((7:Rat)/10 ≤ impactScore c)) : Rat)
              / commits.length
          ∨ (0:Rat) < (commits.countP (fun c => c.is_breaking_change) : Rat)
            / commits.length
      then .medium
      else .low := by
  rw [assessRiskLevel, if_neg]
  simpa using h

/-- C4: replacing one non-breaking commit of a fixed-size set with an
otherwise identical breaking one never decreases the computed risk level
under the ordering low < medium < high. -/
theorem risk_level_monotone (pre post : List Commit) (c : Commit)
    (hc : c.is_breaking_change = false) :
    riskRank (assessRiskLevel (pre ++ c :: post))
      ≤ riskRank (assessRiskLevel (pre ++ { c with is_breaking_change := true } :: post)) := by
  have hne1 : pre ++ c :: post ≠ [] := by simp
  have hne2 : pre ++ { c with is_breaking_change := true } :: post ≠ [] := by simp
  rw [assessRiskLevel_of_ne_nil _ hne1, assessRiskLevel_of_ne_nil _ hne2]
  have hlen : (pre ++ { c with is_breaking_change := true } :: post).length
      = (pre ++ c :: post).length := by simp
  set n := (pre ++ c :: post).length with hn
  have hnpos : (0:Rat) < (n : Rat) := by
    have : 0 < n := by simp [hn]
    exact_mod_cast this
  set B := (pre ++ c :: post).countP (fun x => x.is_breaking_change) with hB
  have hB2 : (pre ++ { c with is_breaking_change := true } :: post).countP
      (fun x => x.is_breaking_change) = B + 1 := by
    simp [hB, List.countP_append, List.countP_cons, hc]
    omega
  have hS2 : (pre ++ { c with is_breaking_change := true } :: post).countP
      (fun x => x.affects_security)
      = (pre ++ c :: post).countP (fun x => x.affects_security) := by
    simp [List.countP_append, List.countP_cons]
  set S := (pre ++ c :: post).countP (fun x => x.affects_security) with hS
  rw [hlen, hB2, hS2]
  have hBlt : (B : Rat) / n < ((B + 1 : Nat) : Rat) / n := by
    apply div_lt_div_of_pos_right _ hnpos
    exact_mod_cast Nat.lt_succ_self B
  have hBpos : (0:Rat) < ((B + 1 : Nat) : Rat) / n := by
    apply div_pos _ hnpos
    exact_mod_cast Nat.succ_pos B
  by_cases H1 : (1:Rat)/10 < (B : Rat) / n ∨ (1:Rat)/5 < (S : Rat) / n
  · rw [if_pos H1, if_pos]
    rcases H1 with H1 | H1
    · exact Or.inl (lt_trans H1 hBlt)
    · exact Or.inr H1
  · rw [if_neg H1]
    by_cases H2 : (1:Rat)/10 < ((B + 1 : Nat) : Rat) / n ∨ (1:Rat)/5 < (S : Rat) / n
    · rw [if_pos H2]
      split <;> norm_num [riskRank]
    · rw [if_neg H2, if_pos (Or.inr hBpos)]
      split <;> norm_num [riskRank]

/-- C4 witness: flipping the breaking flag of the single commit in a
one-commit set does not decrease the risk level. -/
theorem risk_level_monotone_witness :
    riskRank (assessRiskLevel ([] ++ lowC :: []))
      ≤ riskRank (assessRiskLevel ([] ++ { lowC with is_breaking_change := true } :: [])) :=
  risk_level_monotone [] [] lowC rfl

theorem insight_core_len (tc uc fa : Nat) (phase : String) (sec brk : Nat)
    (risk : RiskLevel) :
    ((if tc > 20 then [Insight.highActivity tc]
      else if tc > 10 then [Insight.moderateActivity tc]
      else [Insight.lightActivity tc])
     ++ (if uc > 5 then [Insight.strongCollaboration uc]
         else if uc > 2 then [Insight.goodCollaboration uc] else [])
     ++ (if fa > 50 then [Insight.extensiveChanges fa]
         else if fa > 20 then [Insight.moderateScope fa] else [])
     ++ (if phase ≠ "" then [Insight.phaseMessage phase] else [])
     ++ (if sec > 0 then [Insight.securityUpdates sec] else [])
     ++ (if brk > 0 then [Insight.breakingChanges brk] else [])
     ++ [riskInsightOf risk]).length ≤ 7 := by
  have l1 : (if tc > 20 then [Insight.highActivity tc]
      else if tc > 10 then [Insight.moderateActivity tc]
      else [Insight.lightActivity tc]).length = 1 := by split_ifs <;> rfl
  have l2 : (if uc > 5 then [Insight.strongCollaboration uc]
      else if uc > 2 then [Insight.goodCollaboration uc] else []).length ≤ 1 := by
    split_ifs <;> simp
  have l3 : (if fa > 50 then [Insight.extensiveChanges fa]
      else if fa > 20 then [Insight.moderateScope fa] else []).length ≤ 1 := by
    split_ifs <;> simp
  have l4 : (if phase ≠ "" then [Insight.phaseMessage phase] else []).length ≤ 1 := by
    split_ifs <;> simp
  have l5 : (if sec > 0 then [Insight.securityUpdates sec] else []).length ≤ 1 := by
    split_ifs <;> simp
  have l6 : (if brk > 0 then [Insight.breakingChanges brk] else []).length ≤ 1 := by
    split_ifs <;> simp
  simp only [List.length_append, l1, List.length_singleton]
  omega

theorem insight_core_sec_mem (tc uc fa : Nat) (phase : String) (sec brk : Nat)
    (risk : RiskLevel) (k : Nat) :
    (Insight.securityUpdates k
      ∈ ((if tc > 20 then [Insight.highActivity tc]
          else if tc > 10 then [Insight.moderateActivity tc]
          else [Insight.lightActivity tc])
         ++ (if uc > 5 then [Insight.strongCollaboration uc]
             else if uc > 2 then [Insight.goodCollaboration uc] else [])
         ++ (if fa > 50 then [Insight.extensiveChanges fa]
             else if fa > 20 then [Insight.moderateScope fa] else [])
         ++ (if phase ≠ "" then [Insight.phaseMessage phase] else [])
         ++ (if sec > 0 then [Insight.securityUpdates sec] else [])
         ++ (if brk > 0 then [Insight.breakingChanges brk] else [])
         ++ [riskInsightOf risk]))
      ↔ (0 < sec ∧ k = sec) := by
  have n1 : Insight.securityUpdates k ∉ (if tc > 20 then [Insight.highActivity tc]
      else if tc > 10 then [Insight.moderateActivity tc]
      else [Insight.lightActivity tc]) := by split_ifs <;> simp
  have n2 : Insight.securityUpdates k ∉ (if uc > 5 then [Insight.strongCollaboration uc]
      else if uc > 2 then [Insight.goodCollaboration uc] else []) := by
    split_ifs <;> simp
  have n3 : Insight.securityUpdates k ∉ (if fa > 50 then [Insight.extensiveChanges fa]
      else if fa > 20 then [Insight.moderateScope fa] else []) := by
    split_ifs <;> simp
  have n4 : Insight.securityUpdates k
      ∉ (if phase ≠ "" then [Insight.phaseMessage phase] else []) := by
    split_ifs <;> simp
  have n6 : Insight.securityUpdates k
      ∉ (if brk > 0 then [Insight.breakingChanges brk] else []) := by
    split_ifs <;> simp
  have n7 : Insight.securityUpdates k ∉ [riskInsightOf risk] := by
    cases risk <;> simp [riskInsightOf]
  have h5 : (Insight.securityUpdates k
      ∈ (if sec > 0 then [Insight.securityUpdates sec] else []))
      ↔ (0 < sec ∧ k = sec) := by
    by_cases h : sec > 0 <;> simp [h]
  simp only [List.mem_append, h5, n1, n2, n3, n4, n6, n7, or_false, false_or]

theorem insight_core_brk_mem (tc uc fa : Nat) (phase : String) (sec brk : Nat)
    (risk : RiskLevel) (k : Nat) :
    (Insight.breakingChanges k
      ∈ ((if tc > 20 then [Insight.highActivity tc]
          else if tc > 10 then [Insight.moderateActivity tc]
          else [Insight.lightActivity tc])
         ++ (if uc > 5 then [Insight.strongCollaboration uc]
             else if uc > 2 then [Insight.goodCollaboration uc] else [])
         ++ (if fa > 50 then [Insight.extensiveChanges fa]
             else if fa > 20 then [Insight.moderateScope fa] else [])
         ++ (if phase ≠ "" then [Insight.phaseMessage phase] else [])
         ++ (if sec > 0 then [Insight.securityUpdates sec] else [])
         ++ (if brk > 0 then [Insight.breakingChanges brk] else [])
         ++ [riskInsightOf risk]))
      ↔ (0 < brk ∧ k = brk) := by
  have n1 : Insight.breakingChanges k ∉ (if tc > 20 then [Insight.highActivity tc]
      else if tc > 10 then [Insight.moderateActivity tc]
      else [Insight.lightActivity tc]) := by split_ifs <;> simp
  have n2 : Insight.breakingChanges k ∉ (if uc > 5 then [Insight.strongCollaboration uc]
      else if uc > 2 then [Insight.goodCollaboration uc] else []) := by
    split_ifs <;> simp
  have n3 : Insight.breakingChanges k ∉ (if fa > 50 then [Insight.extensiveChanges fa]
      else if fa > 20 then [Insight.moderateScope fa] else []) := by
    split_ifs <;> simp
  have n4 : Insight.breakingChanges k
      ∉ (if phase ≠ "" then [Insight.phaseMessage phase] else []) := by
    split_ifs <;> simp
  have n5 : Insight.breakingChanges k
      ∉ (if sec > 0 then [Insight.securityUpdates sec] else []) := by
    split_ifs <;> simp
  have n7 : Insight.breakingChanges k ∉ [riskInsightOf risk] := by
    cases risk <;> simp [riskInsightOf]
  have h6 : (Insight.breakingChanges k
      ∈ (if brk > 0 then [Insight.breakingChanges brk] else []))
      ↔ (0 < brk ∧ k = brk) := by
    by_cases h : brk > 0 <;> simp [h]
  simp only [List.mem_append, h6, n1, n2, n3, n4, n5, n7, or_false, false_or]

/-- C9: for every commit collection the insight formatter returns at most
8 insights, and the security-updates message (resp. the breaking-changes
message) appears in the list exactly when the number of security-affecting
(resp. breaking) commits in the collection is nonzero. -/
theorem insights_bounded_and_exact_flags (cc : CommitCollection) :
    (generateInsights cc).length ≤ 8 ∧
    (Insight.securityUpdates (cc.commits.countP (fun c => c.affects_security))
        ∈ generateInsights cc
      ↔ cc.commits.countP (fun c => c.affects_security) ≠ 0) ∧
    (Insight.breakingChanges (cc.commits.countP (fun c => c.is_breaking_change))
        ∈ generateInsights cc
      ↔ cc.commits.countP (fun c => c.is_breaking_change) ≠ 0) := by
  by_cases h : cc.commits = []
  · refine ⟨?_, ?_, ?_⟩ <;> simp [generateInsights, analyzeCommitTrends, h]
  · have hd : analyzeCommitTrends cc.commits = TrendReport.report
        { summary :=
            { total_commits := cc.commits.length,
              time_span := timeSpanHours (sortByTimestampAsc cc.commits),
              unique_contributors :=
                ((cc.commits.map (fun c => c.author.email)).dedup).length,
              files_affected :=
                (((cc.commits.map (fun c => c.files_changed.map (fun f => f.filename))).flatten).dedup).length,
              total_changes := (cc.commits.map (fun c => c.total_changes)).sum },
          time_analysis := analyzeCommitTimeline (sortByTimestampAsc cc.commits),
          contributors := analyzeContributors (sortByTimestampAsc cc.commits),
          files := analyzeFileChanges (sortByTimestampAsc cc.commits),
          types := analyzeCommitTypeTrends (sortByTimestampAsc cc.commits),
          impact := analyzeCommitImpact (sortByTimestampAsc cc.commits) } := by
      rw [analyzeCommitTrends, if_neg h]
    have hsec : (analyzeCommitImpact (sortByTimestampAsc cc.commits)).security_updates
        = cc.commits.countP (fun c => c.affects_security) := by
      show ((sortByTimestampAsc cc.commits).filter (fun c => c.affects_security)).length = _
      rw [← List.countP_eq_length_filter]
      exact (List.perm_insertionSort _ _).countP_eq _
    have hbrk : (analyzeCommitImpact (sortByTimestampAsc cc.commits)).breaking_changes
        = cc.commits.countP (fun c => c.is_breaking_change) := by
      show ((sortByTimestampAsc cc.commits).filter (fun c => c.is_breaking_change)).length = _
      rw [← List.countP_eq_length_filter]
      exact (List.perm_insertionSort _ _).countP_eq _
    simp only [generateInsights, hd]
    rw [hsec, hbrk]
    rw [List.take_of_length_le
      (le_trans (insight_core_len _ _ _ _ _ _ _) (by norm_num))]
    refine ⟨le_trans (insight_core_len _ _ _ _ _ _ _) (by norm_num), ?_, ?_⟩
    · rw [insight_core_sec_mem]
      omega
    · rw [insight_core_brk_mem]
      omega

theorem branch_update_sha (c : Commit) (bn : String) :
    ({ c with branch := bn }).sha = c.sha := rfl

theorem branch_update_branch (c : Commit) (bn : String) :
    ({ c with branch := bn }).branch = bn := rfl

theorem branch_update_update (c : Commit) (b1 b2 : String) :
    ({ ({ c with branch := b1 }) with branch := b2 }) = { c with branch := b2 } := rfl

theorem convertCommit_sha (g : GHCommit) (rn : String) :
    (convertCommit g rn).sha = g.sha := rfl

theorem tieBreakLabel_nil (bn : String) : tieBreakLabel bn [] = bn := by
  rw [tieBreakLabel]
  cases hb : bn == "main" with
  | true => simp [List.find?]; exact (beq_iff_eq.mp hb).symm
  | false => simp

theorem tieBreakLabel_append (bn : String) (rest : List (String × GHCommit))
    (q : String × GHCommit) :
    tieBreakLabel bn (rest ++ [q]) =
      if tieBreakLabel bn rest == "main" && q.1 != "main" then q.1
      else tieBreakLabel bn rest := by
  cases hb : bn == "main" with
  | false => simp [tieBreakLabel, hb]
  | true =>
    rw [tieBreakLabel, tieBreakLabel, if_pos hb, if_pos hb, List.find?_append]
    cases hf : rest.find? (fun p => p.1 != "main") with
    | some x =>
      have hx0 := List.find?_some hf
      have hx2 : (x.1 == "main") = false := by
        cases hxx : x.1 == "main"
        · rfl
        · simp [bne, hxx] at hx0
      simp [Option.or, hx2]
    | none =>
      cases hq : q.1 != "main" with
      | true => simp [Option.or, List.find?, hq]
      | false => simp [Option.or, List.find?, hq]

theorem mergeBranches_eq_flat (rn : String) (branches : List BranchData) :
    ∀ m : List Commit,
      branches.foldl (scanBranch rn) m
        = (flatOccs branches).foldl (fun m p => stepCommit rn p.1 m p.2) m := by
  induction branches with
  | nil => intro m; rfl
  | cons b bs ih =>
    intro m
    rw [List.foldl_cons]
    have hflat : flatOccs (b :: bs)
        = b.commits.map (fun g => (b.name, g)) ++ flatOccs bs := by
      simp [flatOccs]
    rw [hflat, List.foldl_append]
    rw [List.foldl_map]
    exact ih _

theorem shaOccurrences_eq_filter (s : String) (branches : List BranchData) :
    shaOccurrences s branches
      = (flatOccs branches).filter (fun p => p.2.sha == s) := by
  induction branches with
  | nil => rfl
  | cons b bs ih =>
    simp only [shaOccurrences, flatOccs, List.map_cons, List.flatten_cons,
      List.filter_append, List.filter_map]
    simp only [shaOccurrences, flatOccs] at ih
    rw [ih]
    rfl

theorem stepCommit_filter_new (rn bn : String) (m : List Commit) (g : GHCommit)
    (s : String) (hg : g.sha = s)
    (hm : m.filter (fun c => c.sha == s) = []) :
    (stepCommit rn bn m g).filter (fun c => c.sha == s)
      = [{ convertCommit g rn with branch := bn }] := by
  have hnot : ∀ c ∈ m, ¬ (c.sha == s) = true := by
    simpa using List.filter_eq_nil_iff.mp hm
  have hany : m.any (fun c => c.sha == g.sha) = false := by
    rw [List.any_eq_false]
    intro c hc
    rw [hg]
    exact hnot c hc
  rw [stepCommit, if_neg (by rw [hany]; exact Bool.false_ne_true)]
  rw [List.filter_append, hm, List.nil_append]
  rw [List.filter_cons]
  rw [if_pos (by rw [branch_update_sha, convertCommit_sha, hg]; exact beq_self_eq_true s)]
  rfl

theorem stepCommit_filter_seen (rn bn : String) (m : List Commit) (g : GHCommit)
    (s : String) (hg : g.sha = s) (r : Commit)
    (hm : m.filter (fun c => c.sha == s) = [r]) :
    (stepCommit rn bn m g).filter (fun c => c.sha == s)
      = [if r.branch == "main" && bn != "main" then { r with branch := bn } else r] := by
  have hrmem : r ∈ m.filter (fun c => c.sha == s) := by
    rw [hm]; exact List.mem_singleton.mpr rfl
  have hrsha : (r.sha == s) = true := (List.mem_filter.mp hrmem).2
  have hany : m.any (fun c => c.sha == g.sha) = true := by
    rw [List.any_eq_true]
    exact ⟨r, List.mem_of_mem_filter hrmem, by rw [hg]; exact hrsha⟩
  rw [stepCommit, if_pos hany]
  rw [List.filter_map]
  have hcomp : (fun c : Commit => c.sha == s) ∘
      (fun c : Commit => if c.sha == g.sha then
        (if c.branch == "main" && bn != "main" then { c with branch := bn } else c)
        else c)
      = fun c : Commit => c.sha == s := by
    funext c
    by_cases h1 : (c.sha == g.sha) = true
    · by_cases h2 : (c.branch == "main" && bn != "main") = true
      · simp [Function.comp, h1, h2, branch_update_sha]
      · simp [Function.comp, h1, h2]
    · simp [Function.comp, h1]
  rw [hcomp, hm, List.map_cons, List.map_nil]
  rw [if_pos (by rw [hg]; exact hrsha)]

theorem stepCommit_filter_other (rn bn : String) (m : List Commit) (g : GHCommit)
    (s : String) (hg : ¬ g.sha = s) :
    (stepCommit rn bn m g).filter (fun c => c.sha == s)
      = m.filter (fun c => c.sha == s) := by
  rw [stepCommit]
  split
  · rw [List.filter_map]
    have hcomp : (fun c : Commit => c.sha == s) ∘
        (fun c : Commit => if c.sha == g.sha then
          (if c.branch == "main" && bn != "main" then { c with branch := bn } else c)
          else c)
        = fun c : Commit => c.sha == s := by
      funext c
      by_cases h1 : (c.sha == g.sha) = true
      · by_cases h2 : (c.branch == "main" && bn != "main") = true
        · simp [Function.comp, h1, h2, branch_update_sha]
        · simp [Function.comp, h1, h2]
      · simp [Function.comp, h1]
    rw [hcomp]
    have hid : ∀ c ∈ m.filter (fun c : Commit => c.sha == s),
        (if c.sha == g.sha then
          (if c.branch == "main" && bn != "main" then { c with branch := bn } else c)
          else c) = c := by
      intro c hc
      have hcs : (c.sha == s) = true := (List.mem_filter.mp hc).2
      have : (c.sha == g.sha) = false := by
        have hcs2 : c.sha = s := beq_iff_eq.mp hcs
        rw [hcs2]
        cases hgs : s == g.sha
        · rfl
        · exact absurd (beq_iff_eq.mp hgs).symm hg
      rw [this]
      simp
    conv_rhs => rw [← List.map_id (m.filter (fun c : Commit => c.sha == s))]
    exact List.map_congr_left hid
  · rw [List.filter_append, List.filter_cons]
    rw [if_neg (by
      rw [branch_update_sha, convertCommit_sha]
      cases hgs : g.sha == s
      · exact Bool.false_ne_true
      · exact absurd (beq_iff_eq.mp hgs) hg)]
    rw [List.filter_nil, List.append_nil]

theorem expected_single (rn bn : String) (g : GHCommit) :
    expectedFromOccs rn [(bn, g)] = [{ convertCommit g rn with branch := bn }] := by
  simp [expectedFromOccs, tieBreakLabel_nil]

theorem expected_snoc (rn bn0 : String) (g0 : GHCommit)
    (rest : List (String × GHCommit)) (bn : String) (g : GHCommit) :
    expectedFromOccs rn (((bn0, g0) :: rest) ++ [(bn, g)])
      = [if ({ convertCommit g0 rn with branch := tieBreakLabel bn0 rest }).branch
              == "main" && bn != "main"
         then { ({ convertCommit g0 rn with branch := tieBreakLabel bn0 rest }) with
                  branch := bn }
         else { convertCommit g0 rn with branch := tieBreakLabel bn0 rest }] := by
  simp only [List.cons_append, expectedFromOccs, tieBreakLabel_append,
    branch_update_branch, branch_update_update]
  by_cases hc : (tieBreakLabel bn0 rest == "main" && bn != "main") = true <;>
    simp [hc]

theorem dedup_fold_invariant (rn s : String) :
    ∀ (l : List (String × GHCommit)) (m : List Commit)
      (os : List (String × GHCommit)),
      (∀ p ∈ os, p.2.sha = s) →
      m.filter (fun c => c.sha == s) = expectedFromOccs rn os →
      ((l.foldl (fun m p => stepCommit rn p.1 m p.2) m).filter (fun c => c.sha == s)
        = expectedFromOccs rn (os ++ l.filter (fun p => p.2.sha == s))) := by
  intro l
  induction l with
  | nil => intro m os _ hm; simpa using hm
  | cons q t ih =>
    obtain ⟨bn, g⟩ := q
    intro m os hos hm
    rw [List.foldl_cons]
    by_cases hq : g.sha = s
    · have hos' : ∀ p ∈ os ++ [(bn, g)], p.2.sha = s := by
        intro p hp
        rcases List.mem_append.mp hp with hp | hp
        · exact hos p hp
        · rw [List.mem_singleton.mp hp]; exact hq
      have hstep : (stepCommit rn bn m g).filter (fun c => c.sha == s)
          = expectedFromOccs rn (os ++ [(bn, g)]) := by
        cases os with
        | nil =>
          rw [List.nil_append, expected_single]
          exact stepCommit_filter_new rn bn m g s hq
            (by simpa [expectedFromOccs] using hm)
        | cons o0 rest =>
          obtain ⟨bn0, g0⟩ := o0
          rw [expected_snoc]
          exact stepCommit_filter_seen rn bn m g s hq _
            (by simpa [expectedFromOccs] using hm)
      have hfin := ih (stepCommit rn bn m g) (os ++ [(bn, g)]) hos' hstep
      rw [List.filter_cons, if_pos (by simpa using hq)]
      rw [hfin, List.append_assoc, List.singleton_append]
    · have hstep := stepCommit_filter_other rn bn m g s hq
      have hfin := ih (stepCommit rn bn m g) os hos (by rw [hstep]; exact hm)
      rw [List.filter_cons, if_neg (by simpa using hq)]
      exact hfin

/-- C1: for every branch list and sha, the merged output of
`get_commits_all_branches` contains exactly the records predicted by the
deduplication policy: one record per supplied sha (none for an unsupplied
sha), whose content is converted from the FIRST branch that supplied it, and
whose branch label is the first supplier's name — replaced by the first
later supplier's name exactly when the stored label is the "main"
placeholder and the later name differs. In particular, for any two branches
that both supply the same sha, the output has exactly one record for it,
with first-seen content and the tie-break branch label. -/
theorem dedup_single_record (rn s : String) (branches : List BranchData)
    (maxB : Nat) :
    (getCommitsAllBranches rn branches maxB).filter (fun c => c.sha == s)
      = expectedFromOccs rn (shaOccurrences s (branches.take maxB)) := by
  have hbs : (if maxB < branches.length then branches.take maxB else branches)
      = branches.take maxB := by
    split
    · rfl
    · rw [List.take_of_length_le (by omega)]
  have hmerged : (mergeBranches rn (branches.take maxB)).filter
        (fun c => c.sha == s)
      = expectedFromOccs rn (shaOccurrences s (branches.take maxB)) := by
    rw [mergeBranches, mergeBranches_eq_flat]
    have hinv := dedup_fold_invariant rn s (flatOccs (branches.take maxB)) [] []
      (by intro p hp; cases hp) rfl
    rw [List.nil_append] at hinv
    rw [hinv, shaOccurrences_eq_filter]
  have hperm : List.Perm
      ((getCommitsAllBranches rn branches maxB).filter (fun c => c.sha == s))
      ((mergeBranches rn (branches.take maxB)).filter (fun c => c.sha == s)) := by
    simp only [getCommitsAllBranches]
    rw [hbs]
    exact (List.perm_insertionSort _ _).filter _
  rw [hmerged] at hperm
  cases ho : shaOccurrences s (branches.take maxB) with
  | nil =>
    rw [ho] at hperm
    simp only [expectedFromOccs] at hperm ⊢
    exact List.perm_nil.mp hperm
  | cons o rest =>
    obtain ⟨bn0, g0⟩ := o
    rw [ho] at hperm
    simp only [expectedFromOccs] at hperm ⊢
    exact List.perm_singleton.mp hperm

/-- C9 witness: the theorem instantiated at a concrete one-commit
collection. -/
theorem insights_bounded_and_exact_flags_witness :
    (generateInsights ccOne).length ≤ 8 :=
  (insights_bounded_and_exact_flags ccOne).1
